import Mathlib

/-!
Verification of the demux-and-decode telemetry pipeline.

The pipeline exists in two near-identical variants, `main.py` and `train.py`.
Both parse a binary capture made of packets `[connHandle : u16 LE]
[timestampMs : u32 LE][payloadSize : u16 LE][payload : payloadSize bytes]`,
route each payload to a per-handle sink, then invoke an external decoder per
sink and aggregate the outcomes.  We embed the byte stream as `List Nat`
(one entry per byte), file-system and subprocess effects as an explicit
environment, and both pipeline variants as pure functions.
-/

set_option maxRecDepth 10000

abbrev ByteStream := List Nat

/-- One per-handle output sink: the `sensor_files[conn_handle]` dict entry of
`main.py`/`train.py`.  `data` holds the payload bytes written so far, in
order; `packetCount` mirrors `train.py`'s per-sensor packet counter. -/
structure SensorSink where
  connHandle : Nat
  data : List Nat
  packetCount : Nat
deriving Repr, DecidableEq

/-- Embedding of `conn_handle in sensor_files`. -/
def hasSink (sinks : List SensorSink) (ch : Nat) : Bool :=
  sinks.any (fun s => s.connHandle == ch)

/-- Embedding of lazy sink creation on first observation of a handle
(`if conn_handle not in sensor_files: sensor_files[conn_handle] = ...`).
Python dicts preserve insertion order, hence the append at the end. -/
def ensureSink (sinks : List SensorSink) (ch : Nat) : List SensorSink :=
  if hasSink sinks ch then sinks else sinks ++ [⟨ch, [], 0⟩]

/-- Embedding of `sensor_files[conn_handle]['file'].write(payload)` plus the
packet-counter increment of `train.py`. -/
def writeSink (sinks : List SensorSink) (ch : Nat) (payload : List Nat) :
    List SensorSink :=
  sinks.map (fun s =>
    if s.connHandle == ch then ⟨s.connHandle, s.data ++ payload, s.packetCount + 1⟩
    else s)

/-- Whether the demux loop ran to end-of-stream or stopped mid-payload.
`truncated off` carries `f_in.tell()` at the stop, as used in `train.py`'s
RuntimeError message. -/
inductive DemuxStatus where
  | complete
  | truncated (offset : Nat)
deriving Repr, DecidableEq

/-- Result of the shared demux loop: final sinks, number of packets routed
(the `packet_count` of `train.py`), and the terminating status. -/
structure DemuxState where
  sinks : List SensorSink
  packetsRouted : Nat
  status : DemuxStatus
deriving Repr, DecidableEq

/-- The demux `while True` loop shared by `main.py` (lines 144-166) and
`train.py` (lines 228-254): read 8 header bytes (fewer than 8 ends the loop
cleanly), unpack `<HIH` as `connHandle = b0 + 256*b1`,
`payloadSize = b6 + 256*b7` (the four timestamp bytes are unpacked but never
used), create the sink on first observation of the handle, then read exactly
`payloadSize` payload bytes; a short payload stops the loop with a
truncation status and is not written. -/
def demuxLoop (stream : ByteStream) (offset : Nat) (sinks : List SensorSink)
    (routed : Nat) : DemuxState :=
  match stream with
  | b0 :: b1 :: _ :: _ :: _ :: _ :: b6 :: b7 :: rest =>
    let ch := b0 + 256 * b1
    let size := b6 + 256 * b7
    let sinks1 := ensureSink sinks ch
    if rest.length < size then
      ⟨sinks1, routed, .truncated (offset + 8 + rest.length)⟩
    else
      demuxLoop (rest.drop size) (offset + 8 + size)
        (writeSink sinks1 ch (rest.take size)) (routed + 1)
  | _ => ⟨sinks, routed, .complete⟩
termination_by stream.length
decreasing_by simp [List.length_drop]; omega

/-- One fully framed packet of the wire format, with the parsed header
fields alongside the payload slice. -/
structure FramedPacket where
  connHandle : Nat
  timestampMs : Nat
  payloadSize : Nat
  payload : List Nat
deriving Repr, DecidableEq

/-- Reference extraction of the packets of a stream, following the same wire
format: the list of fully framed packets, stopping at end-of-stream or at a
short payload. -/
def framePackets (stream : ByteStream) : List FramedPacket :=
  match stream with
  | b0 :: b1 :: t0 :: t1 :: t2 :: t3 :: b6 :: b7 :: rest =>
    let size := b6 + 256 * b7
    if rest.length < size then []
    else ⟨b0 + 256 * b1,
          t0 + 256 * t1 + 65536 * t2 + 16777216 * t3,
          size, rest.take size⟩ :: framePackets (rest.drop size)
  | _ => []
termination_by stream.length
decreasing_by simp [List.length_drop]; omega

/-- A stream frames completely iff it never stops mid-payload. -/
def frameComplete (stream : ByteStream) : Bool :=
  match stream with
  | _ :: _ :: _ :: _ :: _ :: _ :: b6 :: b7 :: rest =>
    let size := b6 + 256 * b7
    if rest.length < size then false
    else frameComplete (rest.drop size)
  | _ => true
termination_by stream.length
decreasing_by simp [List.length_drop]; omega

/-- Handle of the packet whose payload is short, for a stream that does not
frame completely (0 for complete streams, where it is unused). -/
def truncHandle (stream : ByteStream) : Nat :=
  match stream with
  | b0 :: b1 :: _ :: _ :: _ :: _ :: b6 :: b7 :: rest =>
    let size := b6 + 256 * b7
    if rest.length < size then b0 + 256 * b1
    else truncHandle (rest.drop size)
  | _ => 0
termination_by stream.length
decreasing_by simp [List.length_drop]; omega

/-- Routing a list of framed packets into sinks, one packet at a time, in
order: the body of the demux loop, lifted to packet granularity. -/
def routeAll (sinks : List SensorSink) (ps : List FramedPacket) :
    List SensorSink :=
  ps.foldl (fun sk p => writeSink (ensureSink sk p.connHandle) p.connHandle p.payload) sinks

/-- Bytes held by the sink of a given handle ([] when no such sink). -/
def sinkData (sinks : List SensorSink) (ch : Nat) : List Nat :=
  match sinks.find? (fun s => s.connHandle == ch) with
  | some s => s.data
  | none => []

/-- Total number of packets recorded across all sinks. -/
def totalPackets (sinks : List SensorSink) : Nat :=
  (sinks.map (fun s => s.packetCount)).sum

/-- Payloads routed to a handle, in arrival order. -/
def handlePayloads (ps : List FramedPacket) (ch : Nat) : List (List Nat) :=
  (ps.filter (fun p => p.connHandle == ch)).map (fun p => p.payload)

/-- Sum of the parsed payloadSize fields of a handle's packets. -/
def handleSizeSum (ps : List FramedPacket) (ch : Nat) : Nat :=
  ((ps.filter (fun p => p.connHandle == ch)).map (fun p => p.payloadSize)).sum

/-- Append a key at the end unless already present (dict insertion order). -/
def insertIfAbsent (l : List Nat) (x : Nat) : List Nat :=
  if x ∈ l then l else l ++ [x]

/-- Handles in order of first appearance in the packet list: the insertion
order of the Python dict `sensor_files`. -/
def firstAppear (ps : List FramedPacket) : List Nat :=
  ps.foldl (fun acc p => insertIfAbsent acc p.connHandle) []

unseal demuxLoop framePackets frameComplete truncHandle

/-! ## Decode dispatcher -/

/-- Embedding of `DECODER_TIMEOUT_SEC = 60` of `train.py` (and the literal
`timeout=60` of `main.py`). -/
def DECODER_TIMEOUT_SEC : Nat := 60

/-- Observable result of one `subprocess.run([...], timeout=60)` call:
either `subprocess.TimeoutExpired`, or completion with a return code and
captured standard-error text. -/
inductive ProcResult where
  | timeout
  | exited (returncode : Int) (stderr : String)
deriving Repr, DecidableEq

/-- External environment of the decode step: whether
`os.path.exists(DECODER_EXECUTABLE)` holds, what
`subprocess.run([DECODER_EXECUTABLE, binPath, csvPath], ...)` does, and the
size `os.path.getsize` reports for the output artifact afterwards (0 when
the file is missing). -/
structure DecodeEnv where
  decoderExists : Bool
  run : String → String → ProcResult
  outputSize : String → Nat

/-- Per-sensor decode outcome, tagged by the branch taken in
`decode_sensor_binary` (`train.py` lines 291-315) and in the decode loop of
`main.py` (lines 191-210). -/
inductive DecodeOutcome where
  | success (artifactPath : String)
  | failTimeout
  | failNonZeroExit (stderr : String)
  | failEmptyOutput
deriving Repr, DecidableEq

/-- The branch structure shared by `train.py`'s `decode_sensor_binary` and
`main.py`'s decode loop body: `TimeoutExpired` is caught as a failure; a
non-zero return code is a failure carrying `result.stderr`; a zero exit
with a missing or zero-size output file is a failure; otherwise the
artifact path is the success value. -/
def classifyDecode (env : DecodeEnv) (binPath csvPath : String) : DecodeOutcome :=
  match env.run binPath csvPath with
  | .timeout => .failTimeout
  | .exited rc stderr =>
    if rc ≠ 0 then .failNonZeroExit stderr
    else if env.outputSize csvPath = 0 then .failEmptyOutput
    else .success csvPath

/-- Path of the intermediate per-sensor binary,
`os.path.join(base_dir, f"{base_name}_sensor_{conn_handle}.bin")`. -/
def sensorBinPath (baseDir baseName : String) (ch : Nat) : String :=
  baseDir ++ "/" ++ baseName ++ "_sensor_" ++ toString ch ++ ".bin"

/-- Path of the per-sensor decoded artifact,
`os.path.join(base_dir, f"{base_name}_sensor_{conn_handle}.csv")`. -/
def sensorCsvPath (baseDir baseName : String) (ch : Nat) : String :=
  baseDir ++ "/" ++ baseName ++ "_sensor_" ++ toString ch ++ ".csv"

/-- Embedding of `file_path.lower().endswith('.bin')` (suffix test on the
lower-cased character sequence). -/
def endsWithBin (path : String) : Bool :=
  List.isSuffixOf ".bin".data (path.data.map Char.toLower)

/-- Embedding of `file_path.lower().endswith('.csv')` (`train.py` only). -/
def endsWithCsv (path : String) : Bool :=
  List.isSuffixOf ".csv".data (path.data.map Char.toLower)

/-! ## The `main.py` pipeline -/

/-- Exceptions `main.py`'s `process_binary_to_csv` can raise to its caller:
`FileNotFoundError` when the decoder executable is absent, and
`RuntimeError("No CSVs generated successfully")` when no sensor decoded. -/
inductive MainError where
  | decoderMissing
  | noCsvs
deriving Repr, DecidableEq

deriving instance DecidableEq for Except

/-- Observable run of `main.py`'s `process_binary_to_csv`: the returned list
(or raised error), the handles whose decoder invocation was attempted, in
order, and the sinks created on disk by the demux phase. -/
structure MainRun where
  result : Except MainError (List String)
  invocations : List Nat
  sinks : List SensorSink
deriving Repr, DecidableEq

/-- The `for conn_handle, info in sensor_files.items()` decode loop of
`main.py` (lines 185-210): invoke the decoder per sink in dict order;
timeouts and non-zero exits are logged and skipped; a zero exit with a
non-empty output file appends `csv_out` to `generated_csvs`.  Returns
`(generated_csvs, attempted handles)`. -/
def decodeLoopMain (env : DecodeEnv) (baseDir baseName : String) :
    List SensorSink → List String × List Nat
  | [] => ([], [])
  | s :: rest =>
    let outcome := classifyDecode env (sensorBinPath baseDir baseName s.connHandle)
      (sensorCsvPath baseDir baseName s.connHandle)
    let r := decodeLoopMain env baseDir baseName rest
    match outcome with
    | .success p => (p :: r.1, s.connHandle :: r.2)
    | _ => (r.1, s.connHandle :: r.2)

/-- Embedding of `main.py`'s `process_binary_to_csv` (lines 123-215).
A path not ending in `.bin` (case-insensitively) is returned as a
one-element list untouched.  Otherwise the stream is demuxed (a truncated
payload merely stops the loop with a logged warning), the sinks are closed,
a missing decoder raises `FileNotFoundError`, each sink is decoded in dict
insertion order, and an empty success list raises `RuntimeError`. -/
def mainProcess (env : DecodeEnv) (filePath baseDir baseName : String)
    (stream : ByteStream) : MainRun :=
  if endsWithBin filePath = false then
    ⟨.ok [filePath], [], []⟩
  else
    let d := demuxLoop stream 0 [] 0
    if env.decoderExists = false then
      ⟨.error .decoderMissing, [], d.sinks⟩
    else
      let r := decodeLoopMain env baseDir baseName d.sinks
      if r.1 = [] then ⟨.error .noCsvs, r.2, d.sinks⟩
      else ⟨.ok r.1, r.2, d.sinks⟩

/-! ## The `train.py` pipeline -/

/-- Exceptions `train.py`'s `process_binary_to_csv` can raise:
`ValueError` for an unsupported extension; the `RuntimeError`s wrapping a
demux truncation (whose message carries `f_in.tell()`) and the no-sensors
case; `FileNotFoundError` from `decode_sensor_binary` when the decoder is
absent; and the `RuntimeError`s for all-failed and some-failed sensors. -/
inductive TrainError where
  | unsupportedFormat
  | demuxTruncated (offset : Nat)
  | noSensors
  | decoderMissing
  | allSensorsFailed (failed : List Nat)
  | sensorsFailed (failed : List Nat)
deriving Repr, DecidableEq

/-- Observable run of `train.py`'s `process_binary_to_csv`: returned list or
raised error, decoder invocations attempted (in order), and the sinks the
demux phase left on disk (written even when an error is then raised). -/
structure TrainRun where
  result : Except TrainError (List String)
  invocations : List Nat
  sinks : List SensorSink
deriving Repr, DecidableEq

/-- Embedding of `train.py`'s `process_binary_to_csv` (lines 318-367) with
`demux_binary_file` (lines 200-270) and `decode_sensor_binary` (273-315)
inlined.  A `.csv` path is returned untouched; a non-`.bin` path raises
`ValueError`; a demux truncation raises `RuntimeError` before any decode;
an empty sink dict raises `RuntimeError("No sensors detected...")`; a
missing decoder raises `FileNotFoundError` on the first decode call, before
any invocation; then every sink is decoded, failed handles are collected,
and a `RuntimeError` is raised when all — or any — sensors failed. -/
def trainProcess (env : DecodeEnv) (filePath baseDir baseName : String)
    (stream : ByteStream) : TrainRun :=
  if endsWithCsv filePath then ⟨.ok [filePath], [], []⟩
  else if endsWithBin filePath = false then ⟨.error .unsupportedFormat, [], []⟩
  else
    let d := demuxLoop stream 0 [] 0
    match d.status with
    | .truncated off => ⟨.error (.demuxTruncated off), [], d.sinks⟩
    | .complete =>
      if d.sinks = [] then ⟨.error .noSensors, [], d.sinks⟩
      else if env.decoderExists = false then
        ⟨.error .decoderMissing, [], d.sinks⟩
      else
        let outcomes := d.sinks.map (fun s =>
          (s.connHandle, classifyDecode env (sensorBinPath baseDir baseName s.connHandle)
            (sensorCsvPath baseDir baseName s.connHandle)))
        let ok := outcomes.filterMap (fun o =>
          match o.2 with | .success p => some p | _ => none)
        let failed := outcomes.filterMap (fun o =>
          match o.2 with | .success _ => none | _ => some o.1)
        let inv := d.sinks.map (fun s => s.connHandle)
        if ok = [] then ⟨.error (.allSensorsFailed failed), inv, d.sinks⟩
        else if failed ≠ [] then ⟨.error (.sensorsFailed failed), inv, d.sinks⟩
        else ⟨.ok ok, inv, d.sinks⟩

/-! ## Derived notions used in the specification claims -/

/-- Artifact paths of the sinks whose decode invocation succeeds, in sink
(dict insertion) order: the `generated_csvs` list both pipelines build. -/
def successArtifacts (env : DecodeEnv) (bd bn : String)
    (sinks : List SensorSink) : List String :=
  sinks.filterMap (fun s =>
    match classifyDecode env (sensorBinPath bd bn s.connHandle)
        (sensorCsvPath bd bn s.connHandle) with
    | .success p => some p
    | _ => none)

/-- Handles of the sinks whose decode invocation fails, in sink order: the
`failed_sensors` list of `train.py`. -/
def failedHandles (env : DecodeEnv) (bd bn : String)
    (sinks : List SensorSink) : List Nat :=
  sinks.filterMap (fun s =>
    match classifyDecode env (sensorBinPath bd bn s.connHandle)
        (sensorCsvPath bd bn s.connHandle) with
    | .success _ => none
    | _ => some s.connHandle)

/-- Little-endian encoding of a 16-bit header field. -/
def encode16 (n : Nat) : List Nat := [n % 256, n / 256]

/-- Little-endian encoding of a 32-bit header field. -/
def encode32 (n : Nat) : List Nat :=
  [n % 256, n / 256 % 256, n / 65536 % 256, n / 16777216]

/-- Wire encoding of one packet: 8-byte header then the payload. -/
def serializePacket (p : FramedPacket) : List Nat :=
  encode16 p.connHandle ++ encode32 p.timestampMs ++
    encode16 p.payloadSize ++ p.payload

/-- Wire encoding of a packet list, concatenated in order. -/
def serializeStream (ps : List FramedPacket) : ByteStream :=
  (ps.map serializePacket).flatten

/-- Two byte streams that are identical except in the four timestampMs bytes
of their packet headers: same connHandle and payloadSize bytes, same
payloads, and identical remainders once headers stop being fully framed. -/
inductive tsEquiv : ByteStream → ByteStream → Prop
  | refl (s : ByteStream) : tsEquiv s s
  | packet (b0 b1 u0 u1 u2 u3 v0 v1 v2 v3 z0 z1 : Nat)
      (payload r1 r2 : ByteStream)
      (hlen : payload.length = z0 + 256 * z1) (ht : tsEquiv r1 r2) :
      tsEquiv (b0 :: b1 :: u0 :: u1 :: u2 :: u3 :: z0 :: z1 :: (payload ++ r1))
              (b0 :: b1 :: v0 :: v1 :: v2 :: v3 :: z0 :: z1 :: (payload ++ r2))

/-! ## Sink-level lemmas -/

theorem hasSink_iff_mem (sinks : List SensorSink) (ch : Nat) :
    hasSink sinks ch = true ↔ ch ∈ sinks.map (fun s => s.connHandle) := by
  simp [hasSink, List.any_eq_true, List.mem_map]

theorem writeSink_of_not_has (sinks : List SensorSink) (ch : Nat)
    (pl : List Nat) (h : hasSink sinks ch = false) :
    writeSink sinks ch pl = sinks := by
  induction sinks with
  | nil => rfl
  | cons s rest ih =>
    rw [hasSink, List.any_cons, Bool.or_eq_false_iff] at h
    simp only [writeSink, List.map_cons]
    rw [if_neg (by simp [h.1])]
    exact congrArg (s :: ·) (ih h.2)

theorem map_connHandle_writeSink (sinks : List SensorSink) (ch : Nat)
    (pl : List Nat) :
    (writeSink sinks ch pl).map (fun s => s.connHandle) =
      sinks.map (fun s => s.connHandle) := by
  induction sinks with
  | nil => rfl
  | cons s rest ih =>
    simp only [writeSink, List.map_cons] at *
    by_cases hc : (s.connHandle == ch) = true
    · rw [if_pos hc]; exact congrArg (s.connHandle :: ·) ih
    · rw [if_neg hc]; exact congrArg (s.connHandle :: ·) ih

theorem map_connHandle_ensureSink (sinks : List SensorSink) (ch : Nat) :
    (ensureSink sinks ch).map (fun s => s.connHandle) =
      insertIfAbsent (sinks.map (fun s => s.connHandle)) ch := by
  by_cases h : hasSink sinks ch = true
  · rw [ensureSink, if_pos h, insertIfAbsent,
      if_pos ((hasSink_iff_mem sinks ch).mp h)]
  · have h' : hasSink sinks ch = false := by simpa using h
    rw [ensureSink, if_neg (by simp [h']), insertIfAbsent,
      if_neg (fun hm => by simp [(hasSink_iff_mem sinks ch).mpr hm] at h')]
    simp

theorem find?_sink_of_not_has (sk : List SensorSink) (ch : Nat)
    (h : hasSink sk ch = false) :
    sk.find? (fun s => s.connHandle == ch) = none := by
  apply List.find?_eq_none.mpr
  intro x hx
  rw [hasSink] at h
  exact List.any_eq_false.mp h x hx

theorem sinkData_of_not_has (sk : List SensorSink) (ch : Nat)
    (h : hasSink sk ch = false) : sinkData sk ch = [] := by
  rw [sinkData, find?_sink_of_not_has sk ch h]

theorem sinkData_writeSink (sk : List SensorSink) (hh ch : Nat)
    (pl : List Nat) :
    sinkData (writeSink sk hh pl) ch =
      if ch = hh ∧ hasSink sk ch = true then sinkData sk ch ++ pl
      else sinkData sk ch := by
  have hpre : ∀ s : SensorSink,
      ((if s.connHandle == hh then
          (⟨s.connHandle, s.data ++ pl, s.packetCount + 1⟩ : SensorSink)
        else s).connHandle == ch) = (s.connHandle == ch) := by
    intro s
    by_cases hc : (s.connHandle == hh) = true <;> simp [hc]
  rw [sinkData, writeSink, List.find?_map]
  have hcong : ((fun s => s.connHandle == ch) ∘ fun s =>
      if s.connHandle == hh then
        (⟨s.connHandle, s.data ++ pl, s.packetCount + 1⟩ : SensorSink)
      else s) = (fun s : SensorSink => s.connHandle == ch) := by
    funext s
    exact hpre s
  rw [hcong]
  rcases hf : sk.find? (fun s => s.connHandle == ch) with _ | s
  · have hhas : hasSink sk ch = false := by
      rw [hasSink]
      apply List.any_eq_false.mpr
      intro x hx
      intro hpx
      have := List.find?_eq_none.mp hf x hx
      exact this hpx
    simp [sinkData, hf, hhas]
  · have hsch : (s.connHandle == ch) = true :=
      List.find?_some (p := fun s : SensorSink => s.connHandle == ch) hf
    have hmem : s ∈ sk := List.mem_of_find?_eq_some hf
    have hhas : hasSink sk ch = true := by
      rw [hasSink]
      exact List.any_eq_true.mpr ⟨s, hmem, hsch⟩
    have hch : s.connHandle = ch := by simpa using hsch
    by_cases hce : ch = hh
    · subst hce
      simp [sinkData, hf, Option.map, hch, hhas]
    · have : (s.connHandle == hh) = false := by
        simp [hch]
        exact hce
      simp [sinkData, hf, Option.map, this, hce]

theorem hasSink_ensureSink_self (sk : List SensorSink) (hh : Nat) :
    hasSink (ensureSink sk hh) hh = true := by
  rw [ensureSink]
  by_cases h : hasSink sk hh = true
  · rw [if_pos h]; exact h
  · rw [if_neg h, hasSink, List.any_append]
    simp

theorem sinkData_ensureSink (sk : List SensorSink) (hh ch : Nat) :
    sinkData (ensureSink sk hh) ch = sinkData sk ch := by
  rw [ensureSink]
  by_cases h : hasSink sk hh = true
  · rw [if_pos h]
  · rw [if_neg h]
    rw [sinkData, List.find?_append]
    rcases hf : sk.find? (fun s => s.connHandle == ch) with _ | s
    · rcases hc : ch == hh with _ | _
      · have : ((⟨hh, [], 0⟩ : SensorSink).connHandle == ch) = false := by
          simp at hc ⊢
          exact fun he => hc he.symm
        simp [sinkData, hf, List.find?, this]
      · have : ((⟨hh, [], 0⟩ : SensorSink).connHandle == ch) = true := by
          simp at hc ⊢
          exact hc.symm
        simp [sinkData, hf, List.find?, this]
    · simp [sinkData, hf]

theorem hasSink_route_unit (sk : List SensorSink) (hh ch : Nat) (pl : List Nat) :
    hasSink (writeSink (ensureSink sk hh) hh pl) ch =
      hasSink (ensureSink sk hh) ch := by
  rw [hasSink, hasSink]
  have h1 := map_connHandle_writeSink (ensureSink sk hh) hh pl
  have h2 : ∀ l : List SensorSink,
      l.any (fun s => s.connHandle == ch) =
        (l.map (fun s => s.connHandle)).any (fun x => x == ch) := by
    intro l
    induction l with
    | nil => rfl
    | cons a t ih => simp [List.any_cons, ih]
  rw [h2, h2, h1]

/-- The effect of one loop iteration on one handle's sink bytes. -/
theorem sinkData_route_step (sk : List SensorSink) (hh ch : Nat)
    (pl : List Nat) :
    sinkData (writeSink (ensureSink sk hh) hh pl) ch =
      if ch = hh then sinkData sk ch ++ pl else sinkData sk ch := by
  rw [sinkData_writeSink]
  by_cases hce : ch = hh
  · subst hce
    rw [if_pos ⟨rfl, hasSink_ensureSink_self sk ch⟩, if_pos rfl,
      sinkData_ensureSink]
  · rw [if_neg (fun hand => hce hand.1), if_neg hce, sinkData_ensureSink]

/-! ## Fold lemmas for routing a packet list -/

theorem sinkData_routeAll (ps : List FramedPacket) :
    ∀ (sk : List SensorSink) (ch : Nat),
      sinkData (routeAll sk ps) ch =
        sinkData sk ch ++ (handlePayloads ps ch).flatten := by
  induction ps with
  | nil => intro sk ch; simp [routeAll, handlePayloads]
  | cons p ps ih =>
    intro sk ch
    rw [routeAll, List.foldl_cons]
    have step := sinkData_route_step sk p.connHandle ch p.payload
    rw [show (ps.foldl (fun sk p =>
        writeSink (ensureSink sk p.connHandle) p.connHandle p.payload)
        (writeSink (ensureSink sk p.connHandle) p.connHandle p.payload)) =
      routeAll (writeSink (ensureSink sk p.connHandle) p.connHandle p.payload) ps from rfl]
    rw [ih, step]
    have hcons : handlePayloads (p :: ps) ch =
        if p.connHandle == ch then p.payload :: handlePayloads ps ch
        else handlePayloads ps ch := by
      rw [handlePayloads, List.filter_cons]
      by_cases hc : (p.connHandle == ch) = true
      · rw [if_pos hc, if_pos hc, List.map_cons]; rfl
      · rw [if_neg hc, if_neg hc]; rfl
    rw [hcons]
    by_cases hc : ch = p.connHandle
    · rw [if_pos hc, if_pos (show (p.connHandle == ch) = true by simp [hc])]
      simp
    · rw [if_neg hc,
        if_neg (show ¬(p.connHandle == ch) = true by
          simp
          exact fun he => hc he.symm)]

theorem map_connHandle_route_step (sk : List SensorSink) (hh : Nat)
    (pl : List Nat) :
    (writeSink (ensureSink sk hh) hh pl).map (fun s => s.connHandle) =
      insertIfAbsent (sk.map (fun s => s.connHandle)) hh := by
  rw [map_connHandle_writeSink, map_connHandle_ensureSink]

theorem map_connHandle_routeAll (ps : List FramedPacket) :
    ∀ sk : List SensorSink,
      (routeAll sk ps).map (fun s => s.connHandle) =
        ps.foldl (fun acc p => insertIfAbsent acc p.connHandle)
          (sk.map (fun s => s.connHandle)) := by
  induction ps with
  | nil => intro sk; rfl
  | cons p ps ih =>
    intro sk
    rw [routeAll, List.foldl_cons, List.foldl_cons]
    rw [show (ps.foldl (fun sk p =>
        writeSink (ensureSink sk p.connHandle) p.connHandle p.payload)
        (writeSink (ensureSink sk p.connHandle) p.connHandle p.payload)) =
      routeAll (writeSink (ensureSink sk p.connHandle) p.connHandle p.payload) ps from rfl]
    rw [ih, map_connHandle_route_step]

theorem insertIfAbsent_nodup (l : List Nat) (x : Nat) (h : l.Nodup) :
    (insertIfAbsent l x).Nodup := by
  rw [insertIfAbsent]
  by_cases hm : x ∈ l
  · rw [if_pos hm]; exact h
  · rw [if_neg hm]
    simpa [List.nodup_append] using ⟨h, hm⟩

theorem foldl_insertIfAbsent_nodup (xs : List Nat) :
    ∀ acc : List Nat, acc.Nodup →
      (xs.foldl insertIfAbsent acc).Nodup := by
  induction xs with
  | nil => intro acc h; exact h
  | cons x xs ih =>
    intro acc h
    rw [List.foldl_cons]
    exact ih (insertIfAbsent acc x) (insertIfAbsent_nodup acc x h)

theorem nodup_handles_routeAll (ps : List FramedPacket) (sk : List SensorSink)
    (h : (sk.map (fun s => s.connHandle)).Nodup) :
    ((routeAll sk ps).map (fun s => s.connHandle)).Nodup := by
  rw [map_connHandle_routeAll]
  have : (ps.foldl (fun acc p => insertIfAbsent acc p.connHandle)
      (sk.map (fun s => s.connHandle))) =
      ((ps.map (fun p => p.connHandle)).foldl insertIfAbsent
        (sk.map (fun s => s.connHandle))) := by
    rw [List.foldl_map]
  rw [this]
  exact foldl_insertIfAbsent_nodup _ _ h

theorem totalPackets_writeSink (sk : List SensorSink) (hh : Nat)
    (pl : List Nat) :
    totalPackets (writeSink sk hh pl) =
      totalPackets sk + sk.countP (fun s => s.connHandle == hh) := by
  induction sk with
  | nil => rfl
  | cons s rest ih =>
    by_cases hc : (s.connHandle == hh) = true
    · simp only [writeSink, List.map_cons, if_pos hc, totalPackets,
        List.countP_cons, hc, List.sum_cons, ite_true, ite_false] at *
      omega
    · simp only [writeSink, List.map_cons, if_neg hc, totalPackets,
        List.countP_cons, hc, List.sum_cons, ite_true, ite_false,
        Bool.false_eq_true] at *
      omega

theorem totalPackets_ensureSink (sk : List SensorSink) (hh : Nat) :
    totalPackets (ensureSink sk hh) = totalPackets sk := by
  rw [ensureSink]
  by_cases h : hasSink sk hh = true
  · rw [if_pos h]
  · rw [if_neg h]
    simp [totalPackets]

theorem countP_eq_one_of_nodup (sk : List SensorSink) (hh : Nat)
    (hnd : (sk.map (fun s => s.connHandle)).Nodup)
    (hhas : hasSink sk hh = true) :
    sk.countP (fun s => s.connHandle == hh) = 1 := by
  induction sk with
  | nil => simp [hasSink] at hhas
  | cons s rest ih =>
    rw [List.map_cons, List.nodup_cons] at hnd
    rw [hasSink, List.any_cons] at hhas
    by_cases hc : (s.connHandle == hh) = true
    · have hz : rest.countP (fun s => s.connHandle == hh) = 0 := by
        apply List.countP_eq_zero.mpr
        intro x hx hpx
        have hxh : x.connHandle = hh := by simpa using hpx
        have hsh : s.connHandle = hh := by simpa using hc
        exact hnd.1 (by rw [hsh, ← hxh]; exact List.mem_map_of_mem _ hx)
      simp [List.countP_cons, hc, hz]
    · have hr : rest.any (fun s => s.connHandle == hh) = true := by
        simpa [hc] using hhas
      simp [List.countP_cons, hc, ih hnd.2 hr]

theorem totalPackets_route_step (sk : List SensorSink) (hh : Nat)
    (pl : List Nat) (hnd : (sk.map (fun s => s.connHandle)).Nodup) :
    totalPackets (writeSink (ensureSink sk hh) hh pl) = totalPackets sk + 1 := by
  rw [totalPackets_writeSink, totalPackets_ensureSink]
  congr 1
  by_cases h : hasSink sk hh = true
  · rw [ensureSink, if_pos h]
    exact countP_eq_one_of_nodup sk hh hnd h
  · rw [ensureSink, if_neg h, List.countP_append]
    have h0 : sk.countP (fun s => s.connHandle == hh) = 0 := by
      apply List.countP_eq_zero.mpr
      intro x hx hpx
      rw [hasSink] at h
      exact absurd (List.any_eq_true.mpr ⟨x, hx, hpx⟩) h
    simp [h0, List.countP_cons]

theorem totalPackets_routeAll (ps : List FramedPacket) :
    ∀ sk : List SensorSink, ((sk.map (fun s => s.connHandle)).Nodup) →
      totalPackets (routeAll sk ps) = totalPackets sk + ps.length := by
  induction ps with
  | nil => intro sk _; simp [routeAll]
  | cons p ps ih =>
    intro sk hnd
    rw [routeAll, List.foldl_cons]
    rw [show (ps.foldl (fun sk p =>
        writeSink (ensureSink sk p.connHandle) p.connHandle p.payload)
        (writeSink (ensureSink sk p.connHandle) p.connHandle p.payload)) =
      routeAll (writeSink (ensureSink sk p.connHandle) p.connHandle p.payload) ps from rfl]
    have hnd1 : (((writeSink (ensureSink sk p.connHandle) p.connHandle
        p.payload).map (fun s => s.connHandle)).Nodup) := by
      rw [map_connHandle_route_step]
      exact insertIfAbsent_nodup _ _ hnd
    rw [ih _ hnd1, totalPackets_route_step sk p.connHandle p.payload hnd]
    simp
    omega

/-! ## Characterizing the demux loop by the framed packet list -/

theorem long_decomp (s : ByteStream) (h : ¬ s.length < 8) :
    ∃ b0 b1 t0 t1 t2 t3 b6 b7 rest,
      s = b0 :: b1 :: t0 :: t1 :: t2 :: t3 :: b6 :: b7 :: rest := by
  rcases s with _ | ⟨b0, s⟩
  · simp at h
  rcases s with _ | ⟨b1, s⟩
  · simp at h
  rcases s with _ | ⟨t0, s⟩
  · simp at h
  rcases s with _ | ⟨t1, s⟩
  · simp at h
  rcases s with _ | ⟨t2, s⟩
  · simp at h
  rcases s with _ | ⟨t3, s⟩
  · simp at h
  rcases s with _ | ⟨b6, s⟩
  · simp at h
  rcases s with _ | ⟨b7, s⟩
  · simp at h
  exact ⟨b0, b1, t0, t1, t2, t3, b6, b7, s, rfl⟩

theorem short_stream_cases (s : ByteStream) (h : s.length < 8) :
    frameComplete s = true ∧ framePackets s = [] ∧ truncHandle s = 0 ∧
      ∀ (off : Nat) (sk : List SensorSink) (n : Nat),
        demuxLoop s off sk n = ⟨sk, n, .complete⟩ := by
  rcases s with _ | ⟨b0, s⟩
  · exact ⟨rfl, rfl, rfl, fun _ _ _ => rfl⟩
  rcases s with _ | ⟨b1, s⟩
  · exact ⟨rfl, rfl, rfl, fun _ _ _ => rfl⟩
  rcases s with _ | ⟨t0, s⟩
  · exact ⟨rfl, rfl, rfl, fun _ _ _ => rfl⟩
  rcases s with _ | ⟨t1, s⟩
  · exact ⟨rfl, rfl, rfl, fun _ _ _ => rfl⟩
  rcases s with _ | ⟨t2, s⟩
  · exact ⟨rfl, rfl, rfl, fun _ _ _ => rfl⟩
  rcases s with _ | ⟨t3, s⟩
  · exact ⟨rfl, rfl, rfl, fun _ _ _ => rfl⟩
  rcases s with _ | ⟨b6, s⟩
  · exact ⟨rfl, rfl, rfl, fun _ _ _ => rfl⟩
  rcases s with _ | ⟨b7, s⟩
  · exact ⟨rfl, rfl, rfl, fun _ _ _ => rfl⟩
  simp at h
  omega

theorem demuxLoop_of_complete_aux (N : Nat) :
    ∀ (s : ByteStream), s.length ≤ N → frameComplete s = true →
      ∀ (off : Nat) (sk : List SensorSink) (n : Nat),
        demuxLoop s off sk n =
          ⟨routeAll sk (framePackets s), n + (framePackets s).length,
            .complete⟩ := by
  induction N with
  | zero =>
    intro s hl _ off sk n
    obtain ⟨-, h2, -, h4⟩ := short_stream_cases s (by omega)
    rw [h4, h2]
    simp [routeAll]
  | succ N IH =>
    intro s hl h off sk n
    by_cases hs : s.length < 8
    · obtain ⟨-, h2, -, h4⟩ := short_stream_cases s hs
      rw [h4, h2]
      simp [routeAll]
    · obtain ⟨b0, b1, t0, t1, t2, t3, b6, b7, rest, rfl⟩ := long_decomp s hs
      rw [demuxLoop]
      rw [frameComplete] at h
      by_cases hlt : rest.length < b6 + 256 * b7
      · rw [if_pos hlt] at h
        exact absurd h (by simp)
      · rw [if_neg hlt] at h
        rw [if_neg hlt]
        have hlen : (rest.drop (b6 + 256 * b7)).length ≤ N := by
          simp only [List.length_cons, List.length_drop] at hl ⊢
          omega
        rw [IH (rest.drop (b6 + 256 * b7)) hlen h]
        rw [framePackets]
        rw [if_neg hlt]
        rw [show routeAll sk
            (⟨b0 + 256 * b1, t0 + 256 * t1 + 65536 * t2 + 16777216 * t3,
              b6 + 256 * b7,
              rest.take (b6 + 256 * b7)⟩ :: framePackets (rest.drop (b6 + 256 * b7))) =
          routeAll (writeSink (ensureSink sk (b0 + 256 * b1)) (b0 + 256 * b1)
            (rest.take (b6 + 256 * b7))) (framePackets (rest.drop (b6 + 256 * b7)))
          from rfl]
        rw [List.length_cons]
        rw [show n + ((framePackets (rest.drop (b6 + 256 * b7))).length + 1) =
          n + 1 + (framePackets (rest.drop (b6 + 256 * b7))).length from by omega]

theorem demuxLoop_of_complete (s : ByteStream) (h : frameComplete s = true)
    (off : Nat) (sk : List SensorSink) (n : Nat) :
    demuxLoop s off sk n =
      ⟨routeAll sk (framePackets s), n + (framePackets s).length,
        .complete⟩ :=
  demuxLoop_of_complete_aux s.length s le_rfl h off sk n

theorem demuxLoop_of_truncated_aux (N : Nat) :
    ∀ (s : ByteStream), s.length ≤ N → frameComplete s = false →
      ∀ (off : Nat) (sk : List SensorSink) (n : Nat),
        demuxLoop s off sk n =
          ⟨ensureSink (routeAll sk (framePackets s)) (truncHandle s),
            n + (framePackets s).length, .truncated (off + s.length)⟩ := by
  induction N with
  | zero =>
    intro s hl h
    obtain ⟨h1, -, -, -⟩ := short_stream_cases s (by omega)
    rw [h1] at h
    exact absurd h (by simp)
  | succ N IH =>
    intro s hl h off sk n
    by_cases hs : s.length < 8
    · obtain ⟨h1, -, -, -⟩ := short_stream_cases s hs
      rw [h1] at h
      exact absurd h (by simp)
    · obtain ⟨b0, b1, t0, t1, t2, t3, b6, b7, rest, rfl⟩ := long_decomp s hs
      rw [demuxLoop]
      rw [frameComplete] at h
      by_cases hlt : rest.length < b6 + 256 * b7
      · rw [if_pos hlt]
        rw [framePackets, if_pos hlt, truncHandle, if_pos hlt]
        rw [show routeAll sk [] = sk from rfl]
        congr 1
        congr 1
        simp only [List.length_cons]
        omega
      · rw [if_neg hlt] at h
        rw [if_neg hlt]
        have hlen : (rest.drop (b6 + 256 * b7)).length ≤ N := by
          simp only [List.length_cons, List.length_drop] at hl ⊢
          omega
        rw [IH (rest.drop (b6 + 256 * b7)) hlen h]
        rw [framePackets, if_neg hlt, truncHandle, if_neg hlt]
        rw [show routeAll sk
            (⟨b0 + 256 * b1, t0 + 256 * t1 + 65536 * t2 + 16777216 * t3,
              b6 + 256 * b7,
              rest.take (b6 + 256 * b7)⟩ :: framePackets (rest.drop (b6 + 256 * b7))) =
          routeAll (writeSink (ensureSink sk (b0 + 256 * b1)) (b0 + 256 * b1)
            (rest.take (b6 + 256 * b7))) (framePackets (rest.drop (b6 + 256 * b7)))
          from rfl]
        simp only [List.length_cons, List.length_drop]
        congr 1
        · omega
        · congr 1
          omega

theorem demuxLoop_of_truncated (s : ByteStream) (h : frameComplete s = false)
    (off : Nat) (sk : List SensorSink) (n : Nat) :
    demuxLoop s off sk n =
      ⟨ensureSink (routeAll sk (framePackets s)) (truncHandle s),
        n + (framePackets s).length, .truncated (off + s.length)⟩ :=
  demuxLoop_of_truncated_aux s.length s le_rfl h off sk n

theorem framePackets_payload_length_aux (N : Nat) :
    ∀ s : ByteStream, s.length ≤ N →
      ∀ p ∈ framePackets s, p.payload.length = p.payloadSize := by
  induction N with
  | zero =>
    intro s hl p hp
    obtain ⟨-, h2, -, -⟩ := short_stream_cases s (by omega)
    rw [h2] at hp
    exact absurd hp (List.not_mem_nil p)
  | succ N IH =>
    intro s hl p hp
    by_cases hs : s.length < 8
    · obtain ⟨-, h2, -, -⟩ := short_stream_cases s hs
      rw [h2] at hp
      exact absurd hp (List.not_mem_nil p)
    · obtain ⟨b0, b1, t0, t1, t2, t3, b6, b7, rest, rfl⟩ := long_decomp s hs
      rw [framePackets] at hp
      by_cases hlt : rest.length < b6 + 256 * b7
      · rw [if_pos hlt] at hp
        exact absurd hp (List.not_mem_nil p)
      · rw [if_neg hlt] at hp
        rcases List.mem_cons.mp hp with hp1 | hp2
        · subst hp1
          simp only [List.length_take]
          omega
        · have hlen : (rest.drop (b6 + 256 * b7)).length ≤ N := by
            simp only [List.length_cons, List.length_drop] at hl ⊢
            omega
          exact IH (rest.drop (b6 + 256 * b7)) hlen p hp2

theorem framePackets_payload_length (s : ByteStream) :
    ∀ p ∈ framePackets s, p.payload.length = p.payloadSize :=
  framePackets_payload_length_aux s.length s le_rfl

theorem sinkData_length_eq_sizeSum (s : ByteStream) (ch : Nat) :
    (sinkData (routeAll [] (framePackets s)) ch).length =
      handleSizeSum (framePackets s) ch := by
  rw [sinkData_routeAll]
  rw [show sinkData [] ch = [] from rfl, List.nil_append]
  rw [handlePayloads, handleSizeSum, List.length_flatten]
  rw [List.map_map]
  apply congrArg
  apply List.map_congr_left
  intro p hp
  exact framePackets_payload_length s p (List.mem_of_mem_filter hp)

theorem handles_routeAll_firstAppear (ps : List FramedPacket) :
    (routeAll [] ps).map (fun s => s.connHandle) = firstAppear ps := by
  rw [map_connHandle_routeAll]
  rfl

/-! ## Characterizing the decode loop of `main.py` -/

theorem decodeLoopMain_eq (env : DecodeEnv) (bd bn : String) :
    ∀ sinks : List SensorSink,
      decodeLoopMain env bd bn sinks =
        (sinks.filterMap (fun s =>
            match classifyDecode env (sensorBinPath bd bn s.connHandle)
                (sensorCsvPath bd bn s.connHandle) with
            | .success p => some p
            | _ => none),
          sinks.map (fun s => s.connHandle)) := by
  intro sinks
  induction sinks with
  | nil => rfl
  | cons s rest ih =>
    rw [decodeLoopMain, ih]
    rcases hc : classifyDecode env (sensorBinPath bd bn s.connHandle)
        (sensorCsvPath bd bn s.connHandle) with p | _ | e | _ <;>
      simp [List.filterMap_cons, hc]

/-! ## Serialization lemmas -/

theorem serializePacket_cons_append (p : FramedPacket) (x : ByteStream) :
    serializePacket p ++ x =
      p.connHandle % 256 :: p.connHandle / 256 ::
      p.timestampMs % 256 :: p.timestampMs / 256 % 256 ::
      p.timestampMs / 65536 % 256 :: p.timestampMs / 16777216 ::
      p.payloadSize % 256 :: p.payloadSize / 256 :: (p.payload ++ x) := by
  simp [serializePacket, encode16, encode32]

theorem serialize_frames (ps : List FramedPacket) (trailing : ByteStream)
    (hwf : ∀ p ∈ ps, p.payload.length = p.payloadSize)
    (htr : trailing.length < 8) :
    frameComplete (serializeStream ps ++ trailing) = true ∧
    framePackets (serializeStream ps ++ trailing) = ps := by
  induction ps with
  | nil =>
    obtain ⟨h1, h2, -, -⟩ := short_stream_cases trailing htr
    exact ⟨h1, h2⟩
  | cons p ps ih =>
    have hwp : p.payload.length = p.payloadSize := hwf p (by simp)
    have hwf' : ∀ q ∈ ps, q.payload.length = q.payloadSize :=
      fun q hq => hwf q (by simp [hq])
    obtain ⟨ih1, ih2⟩ := ih hwf'
    have hshape : serializeStream (p :: ps) ++ trailing =
        p.connHandle % 256 :: p.connHandle / 256 ::
        p.timestampMs % 256 :: p.timestampMs / 256 % 256 ::
        p.timestampMs / 65536 % 256 :: p.timestampMs / 16777216 ::
        p.payloadSize % 256 :: p.payloadSize / 256 ::
        (p.payload ++ (serializeStream ps ++ trailing)) := by
      rw [serializeStream, List.map_cons, List.flatten_cons, List.append_assoc]
      rw [serializePacket_cons_append]
      rfl
    rw [hshape]
    have hsize : p.payloadSize % 256 + 256 * (p.payloadSize / 256) =
        p.payloadSize := by omega
    have hnlt : ¬ (p.payload ++ (serializeStream ps ++ trailing)).length <
        p.payloadSize % 256 + 256 * (p.payloadSize / 256) := by
      rw [List.length_append, hwp, hsize]
      omega
    constructor
    · rw [frameComplete, if_neg hnlt]
      rw [show (p.payload ++ (serializeStream ps ++ trailing)).drop
          (p.payloadSize % 256 + 256 * (p.payloadSize / 256)) =
        serializeStream ps ++ trailing from by
          rw [hsize, ← hwp, List.drop_left]]
      exact ih1
    · rw [framePackets, if_neg hnlt]
      rw [show (p.payload ++ (serializeStream ps ++ trailing)).drop
          (p.payloadSize % 256 + 256 * (p.payloadSize / 256)) =
        serializeStream ps ++ trailing from by
          rw [hsize, ← hwp, List.drop_left]]
      rw [ih2]
      congr 1
      rw [show (p.payload ++ (serializeStream ps ++ trailing)).take
          (p.payloadSize % 256 + 256 * (p.payloadSize / 256)) =
        p.payload from by
          rw [hsize, ← hwp, List.take_left]]
      have hch : p.connHandle % 256 + 256 * (p.connHandle / 256) =
          p.connHandle := by omega
      have hts : p.timestampMs % 256 + 256 * (p.timestampMs / 256 % 256) +
          65536 * (p.timestampMs / 65536 % 256) +
          16777216 * (p.timestampMs / 16777216) = p.timestampMs := by omega
      rw [hch, hts, hsize]

/-! ## Timestamp bytes do not influence demuxing -/

theorem demuxLoop_tsEquiv (s1 s2 : ByteStream) (h : tsEquiv s1 s2) :
    ∀ (off : Nat) (sk : List SensorSink) (n : Nat),
      demuxLoop s1 off sk n = demuxLoop s2 off sk n := by
  induction h with
  | refl s => intro off sk n; rfl
  | packet b0 b1 u0 u1 u2 u3 v0 v1 v2 v3 z0 z1 payload r1 r2 hlen ht ih =>
    intro off sk n
    conv_lhs => rw [demuxLoop]
    conv_rhs => rw [demuxLoop]
    have hnlt1 : ¬ (payload ++ r1).length < z0 + 256 * z1 := by
      rw [List.length_append, hlen]; omega
    have hnlt2 : ¬ (payload ++ r2).length < z0 + 256 * z1 := by
      rw [List.length_append, hlen]; omega
    rw [if_neg hnlt1, if_neg hnlt2]
    rw [show (payload ++ r1).take (z0 + 256 * z1) = payload from by
      rw [← hlen, List.take_left]]
    rw [show (payload ++ r2).take (z0 + 256 * z1) = payload from by
      rw [← hlen, List.take_left]]
    rw [show (payload ++ r1).drop (z0 + 256 * z1) = r1 from by
      rw [← hlen, List.drop_left]]
    rw [show (payload ++ r2).drop (z0 + 256 * z1) = r2 from by
      rw [← hlen, List.drop_left]]
    exact ih (off + 8 + (z0 + 256 * z1)) _ (n + 1)

/-! ## Pipeline characterizations -/

theorem successArtifacts_of_all_success (env : DecodeEnv) (bd bn : String)
    (sinks : List SensorSink)
    (hall : ∀ s ∈ sinks,
      classifyDecode env (sensorBinPath bd bn s.connHandle)
        (sensorCsvPath bd bn s.connHandle) =
        .success (sensorCsvPath bd bn s.connHandle)) :
    successArtifacts env bd bn sinks =
      sinks.map (fun s => sensorCsvPath bd bn s.connHandle) := by
  induction sinks with
  | nil => rfl
  | cons s rest ih =>
    have hs := hall s (List.mem_cons_self s rest)
    have ht := fun x hx => hall x (List.mem_cons_of_mem s hx)
    rw [successArtifacts, List.filterMap_cons, hs]
    rw [show successArtifacts env bd bn rest =
      rest.filterMap (fun s =>
        match classifyDecode env (sensorBinPath bd bn s.connHandle)
            (sensorCsvPath bd bn s.connHandle) with
        | .success p => some p
        | _ => none) from rfl] at ih
    rw [ih ht, List.map_cons]

theorem insertIfAbsent_length_ge (l : List Nat) (x : Nat) :
    l.length ≤ (insertIfAbsent l x).length := by
  rw [insertIfAbsent]
  by_cases h : x ∈ l
  · rw [if_pos h]
  · rw [if_neg h]
    simp

theorem foldl_insertIfAbsent_length_ge (xs : List Nat) :
    ∀ acc : List Nat, acc.length ≤ (xs.foldl insertIfAbsent acc).length := by
  induction xs with
  | nil => intro acc; exact le_rfl
  | cons x xs ih =>
    intro acc
    rw [List.foldl_cons]
    exact le_trans (insertIfAbsent_length_ge acc x) (ih _)

theorem firstAppear_ne_nil (ps : List FramedPacket) (h : ps ≠ []) :
    firstAppear ps ≠ [] := by
  rcases ps with _ | ⟨p, ps⟩
  · exact absurd rfl h
  rw [firstAppear, List.foldl_cons]
  have h1 : insertIfAbsent [] p.connHandle = [p.connHandle] := rfl
  rw [h1]
  intro hc
  have h2 : (ps.foldl (fun acc q => insertIfAbsent acc q.connHandle)
      [p.connHandle]) = ((ps.map (fun q => q.connHandle)).foldl insertIfAbsent
      [p.connHandle]) := by
    rw [List.foldl_map]
  rw [h2] at hc
  have h3 := foldl_insertIfAbsent_length_ge
    (ps.map (fun q => q.connHandle)) [p.connHandle]
  rw [hc] at h3
  simp at h3

theorem routeAll_nil_ne_nil (ps : List FramedPacket) (h : ps ≠ []) :
    routeAll [] ps ≠ [] := by
  intro hc
  have h1 := handles_routeAll_firstAppear ps
  rw [hc] at h1
  exact firstAppear_ne_nil ps h h1.symm

theorem mainProcess_bin (env : DecodeEnv) (fp bd bn : String)
    (stream : ByteStream) (hbin : endsWithBin fp = true)
    (henv : env.decoderExists = true) :
    mainProcess env fp bd bn stream =
      if successArtifacts env bd bn (demuxLoop stream 0 [] 0).sinks = [] then
        ⟨.error .noCsvs,
          (demuxLoop stream 0 [] 0).sinks.map (fun s => s.connHandle),
          (demuxLoop stream 0 [] 0).sinks⟩
      else
        ⟨.ok (successArtifacts env bd bn (demuxLoop stream 0 [] 0).sinks),
          (demuxLoop stream 0 [] 0).sinks.map (fun s => s.connHandle),
          (demuxLoop stream 0 [] 0).sinks⟩ := by
  rw [mainProcess, if_neg (by simp [hbin]), if_neg (by simp [henv])]
  rw [decodeLoopMain_eq]
  rfl

theorem trainProcess_complete (env : DecodeEnv) (fp bd bn : String)
    (stream : ByteStream) (hcsv : endsWithCsv fp = false)
    (hbin : endsWithBin fp = true) (hfc : frameComplete stream = true)
    (hne : routeAll [] (framePackets stream) ≠ [])
    (henv : env.decoderExists = true) :
    trainProcess env fp bd bn stream =
      (if successArtifacts env bd bn (routeAll [] (framePackets stream)) = [] then
        ⟨.error (.allSensorsFailed
            (failedHandles env bd bn (routeAll [] (framePackets stream)))),
          (routeAll [] (framePackets stream)).map (fun s => s.connHandle),
          routeAll [] (framePackets stream)⟩
      else if failedHandles env bd bn (routeAll [] (framePackets stream)) ≠ [] then
        ⟨.error (.sensorsFailed
            (failedHandles env bd bn (routeAll [] (framePackets stream)))),
          (routeAll [] (framePackets stream)).map (fun s => s.connHandle),
          routeAll [] (framePackets stream)⟩
      else
        ⟨.ok (successArtifacts env bd bn (routeAll [] (framePackets stream))),
          (routeAll [] (framePackets stream)).map (fun s => s.connHandle),
          routeAll [] (framePackets stream)⟩) := by
  rw [trainProcess, if_neg (by simp [hcsv]), if_neg (by simp [hbin])]
  rw [demuxLoop_of_complete stream hfc]
  have hok : ((routeAll [] (framePackets stream)).map (fun s =>
      (s.connHandle, classifyDecode env (sensorBinPath bd bn s.connHandle)
        (sensorCsvPath bd bn s.connHandle)))).filterMap (fun o =>
      match o.2 with
      | DecodeOutcome.success p => some p
      | _ => none) =
      successArtifacts env bd bn (routeAll [] (framePackets stream)) := by
    rw [List.filterMap_map]
    rfl
  have hfail : ((routeAll [] (framePackets stream)).map (fun s =>
      (s.connHandle, classifyDecode env (sensorBinPath bd bn s.connHandle)
        (sensorCsvPath bd bn s.connHandle)))).filterMap (fun o =>
      match o.2 with
      | DecodeOutcome.success _ => none
      | _ => some o.1) =
      failedHandles env bd bn (routeAll [] (framePackets stream)) := by
    rw [List.filterMap_map]
    rfl
  simp only [hok, hfail, if_neg hne]
  rw [if_neg (show ¬ env.decoderExists = false from by rw [henv]; simp)]

theorem mainProcess_decoder_missing (env : DecodeEnv) (fp bd bn : String)
    (stream : ByteStream) (hbin : endsWithBin fp = true)
    (henv : env.decoderExists = false) :
    mainProcess env fp bd bn stream =
      ⟨.error .decoderMissing, [], (demuxLoop stream 0 [] 0).sinks⟩ := by
  rw [mainProcess, if_neg (by simp [hbin]), if_pos henv]

theorem trainProcess_truncated (env : DecodeEnv) (fp bd bn : String)
    (stream : ByteStream) (hcsv : endsWithCsv fp = false)
    (hbin : endsWithBin fp = true) (hfc : frameComplete stream = false) :
    trainProcess env fp bd bn stream =
      ⟨.error (.demuxTruncated stream.length), [],
        ensureSink (routeAll [] (framePackets stream)) (truncHandle stream)⟩ := by
  rw [trainProcess, if_neg (by simp [hcsv]), if_neg (by simp [hbin])]
  rw [demuxLoop_of_truncated stream hfc]
  simp only [Nat.zero_add]

theorem trainProcess_decoder_missing (env : DecodeEnv) (fp bd bn : String)
    (stream : ByteStream) (hcsv : endsWithCsv fp = false)
    (hbin : endsWithBin fp = true) (hfc : frameComplete stream = true)
    (hne : routeAll [] (framePackets stream) ≠ [])
    (henv : env.decoderExists = false) :
    trainProcess env fp bd bn stream =
      ⟨.error .decoderMissing, [], routeAll [] (framePackets stream)⟩ := by
  rw [trainProcess, if_neg (by simp [hcsv]), if_neg (by simp [hbin])]
  rw [demuxLoop_of_complete stream hfc]
  simp only [if_neg hne, if_pos henv]

theorem failedHandles_of_all_success (env : DecodeEnv) (bd bn : String)
    (sinks : List SensorSink)
    (hall : ∀ s ∈ sinks,
      classifyDecode env (sensorBinPath bd bn s.connHandle)
        (sensorCsvPath bd bn s.connHandle) =
        .success (sensorCsvPath bd bn s.connHandle)) :
    failedHandles env bd bn sinks = [] := by
  induction sinks with
  | nil => rfl
  | cons s rest ih =>
    have hs := hall s (List.mem_cons_self s rest)
    have ht := fun x hx => hall x (List.mem_cons_of_mem s hx)
    rw [failedHandles, List.filterMap_cons, hs]
    rw [show failedHandles env bd bn rest =
      rest.filterMap (fun s =>
        match classifyDecode env (sensorBinPath bd bn s.connHandle)
            (sensorCsvPath bd bn s.connHandle) with
        | .success _ => none
        | _ => some s.connHandle) from rfl] at ih
    rw [ih ht]

theorem sinkData_demux (stream : ByteStream) (ch : Nat) :
    sinkData (demuxLoop stream 0 [] 0).sinks ch =
      (handlePayloads (framePackets stream) ch).flatten := by
  by_cases hfc : frameComplete stream = true
  · rw [demuxLoop_of_complete stream hfc]
    show sinkData (routeAll [] (framePackets stream)) ch = _
    rw [sinkData_routeAll]
    rw [show sinkData [] ch = [] from rfl, List.nil_append]
  · rw [demuxLoop_of_truncated stream (by simpa using hfc)]
    show sinkData (ensureSink (routeAll [] (framePackets stream))
      (truncHandle stream)) ch = _
    rw [sinkData_ensureSink, sinkData_routeAll]
    rw [show sinkData [] ch = [] from rfl, List.nil_append]

theorem mainProcess_fields (env : DecodeEnv) (fp bd bn : String)
    (stream : ByteStream) (hbin : endsWithBin fp = true)
    (henv : env.decoderExists = true) :
    (mainProcess env fp bd bn stream).sinks = (demuxLoop stream 0 [] 0).sinks ∧
    (mainProcess env fp bd bn stream).invocations =
      (demuxLoop stream 0 [] 0).sinks.map (fun s => s.connHandle) := by
  rw [mainProcess_bin env fp bd bn stream hbin henv]
  by_cases h : successArtifacts env bd bn (demuxLoop stream 0 [] 0).sinks = []
  · rw [if_pos h]
    exact ⟨rfl, rfl⟩
  · rw [if_neg h]
    exact ⟨rfl, rfl⟩

/-! ## Claim theorems -/

/-- C5: if the decoder executable is missing from its configured path, both
pipeline variants fail with the job-level decoder-missing error
(`FileNotFoundError`) before any decoder invocation is attempted: zero
sensors attempted, for every set of demuxed sensor sinks. -/
theorem C5_decoder_missing (env : DecodeEnv) (fp bd bn : String)
    (stream : ByteStream) (henv : env.decoderExists = false)
    (hbin : endsWithBin fp = true) :
    (mainProcess env fp bd bn stream).result = .error .decoderMissing ∧
    (mainProcess env fp bd bn stream).invocations = [] ∧
    (endsWithCsv fp = false → frameComplete stream = true →
      routeAll [] (framePackets stream) ≠ [] →
      (trainProcess env fp bd bn stream).result = .error .decoderMissing ∧
      (trainProcess env fp bd bn stream).invocations = []) := by
  refine ⟨?_, ?_, ?_⟩
  · rw [mainProcess_decoder_missing env fp bd bn stream hbin henv]
  · rw [mainProcess_decoder_missing env fp bd bn stream hbin henv]
  · intro hcsv hfc hne
    rw [trainProcess_decoder_missing env fp bd bn stream hcsv hbin hfc hne henv]
    exact ⟨rfl, rfl⟩

theorem C5_decoder_missing_witness :
    (mainProcess ⟨false, fun _ _ => .timeout, fun _ => 0⟩ "a.bin" "d" "a"
        [1, 0, 0, 0, 0, 0, 1, 0, 5]).result = .error .decoderMissing ∧
    (trainProcess ⟨false, fun _ _ => .timeout, fun _ => 0⟩ "a.bin" "d" "a"
        [1, 0, 0, 0, 0, 0, 1, 0, 5]).invocations = [] := by
  have h := C5_decoder_missing ⟨false, fun _ _ => .timeout, fun _ => 0⟩
    "a.bin" "d" "a" [1, 0, 0, 0, 0, 0, 1, 0, 5] rfl (by decide)
  exact ⟨h.1, (h.2.2 (by decide) (by decide) (by decide)).2⟩

/-- C6: each decoder invocation is classified exactly as the spec states:
the fixed timeout is 60 seconds and exceeding it is a timeout failure; a
non-zero exit is a non-zero-exit failure carrying the captured stderr text;
a zero exit with a missing or zero-length output artifact is an
empty-or-missing-output failure; otherwise the outcome is success with the
artifact path. -/
theorem C6_outcome_classification (env : DecodeEnv) (b c : String) :
    DECODER_TIMEOUT_SEC = 60 ∧
    (env.run b c = .timeout → classifyDecode env b c = .failTimeout) ∧
    (∀ rc st, env.run b c = .exited rc st → rc ≠ 0 →
      classifyDecode env b c = .failNonZeroExit st) ∧
    (∀ st, env.run b c = .exited 0 st → env.outputSize c = 0 →
      classifyDecode env b c = .failEmptyOutput) ∧
    (∀ st, env.run b c = .exited 0 st → env.outputSize c ≠ 0 →
      classifyDecode env b c = .success c) := by
  refine ⟨rfl, ?_, ?_, ?_, ?_⟩
  · intro h
    rw [classifyDecode, h]
  · intro rc st h hrc
    rw [classifyDecode, h]
    simp [hrc]
  · intro st h hz
    rw [classifyDecode, h]
    simp [hz]
  · intro st h hz
    rw [classifyDecode, h]
    simp [hz]

theorem C6_outcome_classification_witness :
    classifyDecode ⟨true, fun _ _ => .timeout, fun _ => 1⟩ "i" "o" =
      .failTimeout ∧
    classifyDecode ⟨true, fun _ _ => .exited 2 "boom", fun _ => 1⟩ "i" "o" =
      .failNonZeroExit "boom" ∧
    classifyDecode ⟨true, fun _ _ => .exited 0 "", fun _ => 0⟩ "i" "o" =
      .failEmptyOutput ∧
    classifyDecode ⟨true, fun _ _ => .exited 0 "", fun _ => 3⟩ "i" "o" =
      .success "o" :=
  ⟨(C6_outcome_classification ⟨true, fun _ _ => .timeout, fun _ => 1⟩
      "i" "o").2.1 rfl,
   (C6_outcome_classification ⟨true, fun _ _ => .exited 2 "boom", fun _ => 1⟩
      "i" "o").2.2.1 2 "boom" rfl (by decide),
   (C6_outcome_classification ⟨true, fun _ _ => .exited 0 "", fun _ => 0⟩
      "i" "o").2.2.2.1 "" rfl rfl,
   (C6_outcome_classification ⟨true, fun _ _ => .exited 0 "", fun _ => 3⟩
      "i" "o").2.2.2.2 "" rfl (by decide)⟩

/-- C7: demultiplexing preserves per-handle content and order: for every
valid (completely framed) input stream and handle, the sink holds exactly
the concatenation, in arrival order, of that handle's payloads with headers
stripped; its byte count equals the sum of that handle's payloadSize fields;
and the number of packets routed equals the number of headers parsed. -/
theorem C7_demux_preservation (stream : ByteStream) (ch : Nat)
    (hfc : frameComplete stream = true) :
    sinkData (demuxLoop stream 0 [] 0).sinks ch =
      (handlePayloads (framePackets stream) ch).flatten ∧
    (sinkData (demuxLoop stream 0 [] 0).sinks ch).length =
      handleSizeSum (framePackets stream) ch ∧
    totalPackets (demuxLoop stream 0 [] 0).sinks =
      (framePackets stream).length ∧
    (demuxLoop stream 0 [] 0).packetsRouted =
      (framePackets stream).length := by
  refine ⟨sinkData_demux stream ch, ?_, ?_, ?_⟩
  · rw [demuxLoop_of_complete stream hfc]
    exact sinkData_length_eq_sizeSum stream ch
  · rw [demuxLoop_of_complete stream hfc]
    show totalPackets (routeAll [] (framePackets stream)) = _
    rw [totalPackets_routeAll (framePackets stream) [] (by simp)]
    rw [show totalPackets [] = 0 from rfl]
    omega
  · rw [demuxLoop_of_complete stream hfc]
    show 0 + (framePackets stream).length = (framePackets stream).length
    omega

theorem C7_demux_preservation_witness :
    frameComplete [1, 0, 0, 0, 0, 0, 2, 0, 4, 5,
      2, 0, 0, 0, 0, 0, 1, 0, 6, 1, 0, 0, 0, 0, 0, 1, 0, 7] = true ∧
    sinkData (demuxLoop [1, 0, 0, 0, 0, 0, 2, 0, 4, 5,
      2, 0, 0, 0, 0, 0, 1, 0, 6, 1, 0, 0, 0, 0, 0, 1, 0, 7] 0 [] 0).sinks 1 =
      (handlePayloads (framePackets [1, 0, 0, 0, 0, 0, 2, 0, 4, 5,
        2, 0, 0, 0, 0, 0, 1, 0, 6, 1, 0, 0, 0, 0, 0, 1, 0, 7]) 1).flatten :=
  ⟨by decide,
   (C7_demux_preservation [1, 0, 0, 0, 0, 0, 2, 0, 4, 5,
      2, 0, 0, 0, 0, 0, 1, 0, 6, 1, 0, 0, 0, 0, 0, 1, 0, 7] 1 (by decide)).1⟩

/-- C8: a stream made of well-formed packets followed by fewer than 8
trailing bytes frames cleanly with no truncation error; in particular one
well-formed header with exactly payloadSize payload bytes and nothing else
frames exactly one packet and terminates cleanly. -/
theorem C8_clean_eos (ps : List FramedPacket) (trailing : ByteStream)
    (hwf : ∀ p ∈ ps, p.payload.length = p.payloadSize)
    (htr : trailing.length < 8) :
    frameComplete (serializeStream ps ++ trailing) = true ∧
    framePackets (serializeStream ps ++ trailing) = ps ∧
    (demuxLoop (serializeStream ps ++ trailing) 0 [] 0).status = .complete ∧
    (demuxLoop (serializeStream ps ++ trailing) 0 [] 0).packetsRouted =
      ps.length := by
  obtain ⟨h1, h2⟩ := serialize_frames ps trailing hwf htr
  refine ⟨h1, h2, ?_, ?_⟩
  · rw [demuxLoop_of_complete _ h1]
  · rw [demuxLoop_of_complete _ h1, h2]
    show 0 + ps.length = ps.length
    omega

theorem C8_clean_eos_witness :
    framePackets (serializeStream [⟨1, 0, 2, [7, 9]⟩] ++ []) =
      [⟨1, 0, 2, [7, 9]⟩] ∧
    (demuxLoop (serializeStream [⟨1, 0, 2, [7, 9]⟩] ++ []) 0 [] 0).status =
      .complete :=
  ⟨(C8_clean_eos [⟨1, 0, 2, [7, 9]⟩] [] (by decide) (by decide)).2.1,
   (C8_clean_eos [⟨1, 0, 2, [7, 9]⟩] [] (by decide) (by decide)).2.2.1⟩

/-- C9: the timestampMs header bytes do not influence demux output: two
streams identical except in the timestamp bytes of their packet headers
demux to identical states (same sinks, same bytes, same order). -/
theorem C9_timestamp_noninterference (s1 s2 : ByteStream) (h : tsEquiv s1 s2)
    (off : Nat) (sk : List SensorSink) (n : Nat) :
    demuxLoop s1 off sk n = demuxLoop s2 off sk n :=
  demuxLoop_tsEquiv s1 s2 h off sk n

theorem C9_timestamp_noninterference_witness :
    demuxLoop [1, 0, 5, 6, 7, 8, 1, 0, 42] 0 [] 0 =
      demuxLoop [1, 0, 9, 10, 11, 12, 1, 0, 42] 0 [] 0 :=
  C9_timestamp_noninterference
    (1 :: 0 :: 5 :: 6 :: 7 :: 8 :: 1 :: 0 :: ([42] ++ []))
    (1 :: 0 :: 9 :: 10 :: 11 :: 12 :: 1 :: 0 :: ([42] ++ []))
    (tsEquiv.packet 1 0 5 6 7 8 9 10 11 12 1 0 [42] [] [] (by decide)
      (tsEquiv.refl [])) 0 [] 0

/-- C10: for every file path not ending in ".bin" (case-insensitively),
`process_binary_to_csv` in `main.py` returns the one-element list holding
that path unchanged: no demuxing, no decoder invocation, no files created. -/
theorem C10_non_bin_passthrough (env : DecodeEnv)
    (fp bd bn : String) (stream : ByteStream)
    (h : endsWithBin fp = false) :
    mainProcess env fp bd bn stream = ⟨.ok [fp], [], []⟩ := by
  rw [mainProcess, if_pos h]

theorem C10_non_bin_passthrough_witness :
    endsWithBin "ride.CsV" = false ∧
    mainProcess ⟨true, fun _ _ => .exited 0 "", fun _ => 1⟩ "ride.CsV" "d" "r"
      [1, 0, 0, 0, 0, 0, 1, 0, 9] = ⟨.ok ["ride.CsV"], [], []⟩ :=
  ⟨by decide,
   C10_non_bin_passthrough ⟨true, fun _ _ => .exited 0 "", fun _ => 1⟩
     "ride.CsV" "d" "r" [1, 0, 0, 0, 0, 0, 1, 0, 9] (by decide)⟩

/-- C1 (amended): `main.py` implements the lenient policy — its pipeline
returns exactly the successful artifacts, excluding failed sensors, and
raises a job-level error only when zero sensors decoded — but `train.py`
implements the strict policy: whenever any sensor fails it raises a
job-level RuntimeError even if other sensors decoded successfully. -/
theorem C1_partial_failure_policies (env : DecodeEnv) (fp bd bn : String)
    (stream : ByteStream) (hbin : endsWithBin fp = true)
    (henv : env.decoderExists = true) :
    (successArtifacts env bd bn (demuxLoop stream 0 [] 0).sinks ≠ [] →
      (mainProcess env fp bd bn stream).result =
        .ok (successArtifacts env bd bn (demuxLoop stream 0 [] 0).sinks)) ∧
    (successArtifacts env bd bn (demuxLoop stream 0 [] 0).sinks = [] →
      (mainProcess env fp bd bn stream).result = .error .noCsvs) ∧
    (endsWithCsv fp = false → frameComplete stream = true →
      routeAll [] (framePackets stream) ≠ [] →
      failedHandles env bd bn (routeAll [] (framePackets stream)) ≠ [] →
      ∀ res : List String,
        (trainProcess env fp bd bn stream).result ≠ .ok res) := by
  refine ⟨?_, ?_, ?_⟩
  · intro h
    rw [mainProcess_bin env fp bd bn stream hbin henv, if_neg h]
  · intro h
    rw [mainProcess_bin env fp bd bn stream hbin henv, if_pos h]
  · intro hcsv hfc hne hfail res
    rw [trainProcess_complete env fp bd bn stream hcsv hbin hfc hne henv]
    by_cases hok : successArtifacts env bd bn
        (routeAll [] (framePackets stream)) = []
    · rw [if_pos hok]
      simp
    · rw [if_neg hok, if_pos hfail]
      simp

/-- C1 counterexample: with two demuxed sensors where sensor 1 decodes
successfully and sensor 2 times out, `train.py`'s pipeline raises
(`Sensors [2] failed decoding`) instead of returning the one successful
artifact, refuting the claim that the pipeline follows the lenient policy. -/
theorem C1_counterexample :
    successArtifacts
        ⟨true, fun b _ => if b = "d/s_sensor_1.bin" then .exited 0 ""
          else .timeout, fun _ => 1⟩ "d" "s"
        (demuxLoop [1, 0, 0, 0, 0, 0, 1, 0, 9,
          2, 0, 0, 0, 0, 0, 1, 0, 8] 0 [] 0).sinks = ["d/s_sensor_1.csv"] ∧
    (trainProcess
        ⟨true, fun b _ => if b = "d/s_sensor_1.bin" then .exited 0 ""
          else .timeout, fun _ => 1⟩ "s.bin" "d" "s"
        [1, 0, 0, 0, 0, 0, 1, 0, 9, 2, 0, 0, 0, 0, 0, 1, 0, 8]).result =
      .error (.sensorsFailed [2]) := by decide

theorem C1_partial_failure_policies_witness :
    (mainProcess
        ⟨true, fun b _ => if b = "d/s_sensor_1.bin" then .exited 0 ""
          else .timeout, fun _ => 1⟩ "s.bin" "d" "s"
        [1, 0, 0, 0, 0, 0, 1, 0, 9, 2, 0, 0, 0, 0, 0, 1, 0, 8]).result =
      .ok (successArtifacts
        ⟨true, fun b _ => if b = "d/s_sensor_1.bin" then .exited 0 ""
          else .timeout, fun _ => 1⟩ "d" "s"
        (demuxLoop [1, 0, 0, 0, 0, 0, 1, 0, 9,
          2, 0, 0, 0, 0, 0, 1, 0, 8] 0 [] 0).sinks) :=
  (C1_partial_failure_policies
    ⟨true, fun b _ => if b = "d/s_sensor_1.bin" then .exited 0 ""
      else .timeout, fun _ => 1⟩ "s.bin" "d" "s"
    [1, 0, 0, 0, 0, 0, 1, 0, 9, 2, 0, 0, 0, 0, 0, 1, 0, 8]
    (by decide) rfl).1 (by decide)

/-- C2 (amended): the artifact list is ordered by first appearance of each
connHandle in the stream (Python dict insertion order), not by ascending
connHandle: when every sensor decodes, `main.py`'s pipeline returns the csv
paths of the handles in first-appearance order. -/
theorem C2_order_first_appearance (env : DecodeEnv) (fp bd bn : String)
    (stream : ByteStream) (hbin : endsWithBin fp = true)
    (henv : env.decoderExists = true) (hfc : frameComplete stream = true)
    (hne : framePackets stream ≠ [])
    (hall : ∀ s ∈ (demuxLoop stream 0 [] 0).sinks,
      classifyDecode env (sensorBinPath bd bn s.connHandle)
        (sensorCsvPath bd bn s.connHandle) =
        .success (sensorCsvPath bd bn s.connHandle)) :
    (mainProcess env fp bd bn stream).result =
      .ok ((firstAppear (framePackets stream)).map (sensorCsvPath bd bn)) := by
  have hsk : (demuxLoop stream 0 [] 0).sinks =
      routeAll [] (framePackets stream) := by
    rw [demuxLoop_of_complete stream hfc]
  rw [hsk] at hall
  have hsucc : successArtifacts env bd bn (routeAll [] (framePackets stream)) =
      (firstAppear (framePackets stream)).map (sensorCsvPath bd bn) := by
    rw [successArtifacts_of_all_success env bd bn _ hall]
    rw [← handles_routeAll_firstAppear, List.map_map]
    rfl
  have hne2 : successArtifacts env bd bn
      (routeAll [] (framePackets stream)) ≠ [] := by
    rw [successArtifacts_of_all_success env bd bn _ hall]
    intro hc
    exact routeAll_nil_ne_nil (framePackets stream) hne
      (List.map_eq_nil_iff.mp hc)
  rw [mainProcess_bin env fp bd bn stream hbin henv, hsk, if_neg hne2, hsucc]

/-- C2 counterexample: in a stream where handle 2 appears before handle 1
and both decode successfully, the returned list is
[sensor_2.csv, sensor_1.csv] — first-appearance order — which is not the
ascending-connHandle order the claim requires. -/
theorem C2_counterexample :
    (mainProcess ⟨true, fun _ _ => .exited 0 "", fun _ => 1⟩ "s.bin" "d" "s"
        [2, 0, 0, 0, 0, 0, 1, 0, 8, 1, 0, 0, 0, 0, 0, 1, 0, 9]).result =
      .ok ["d/s_sensor_2.csv", "d/s_sensor_1.csv"] ∧
    (["d/s_sensor_2.csv", "d/s_sensor_1.csv"] : List String) ≠
      ["d/s_sensor_1.csv", "d/s_sensor_2.csv"] := by decide

theorem C2_order_first_appearance_witness :
    (mainProcess ⟨true, fun _ _ => .exited 0 "", fun _ => 1⟩ "s.bin" "d" "s"
        [2, 0, 0, 0, 0, 0, 1, 0, 8, 1, 0, 0, 0, 0, 0, 1, 0, 9]).result =
      .ok ((firstAppear (framePackets
        [2, 0, 0, 0, 0, 0, 1, 0, 8, 1, 0, 0, 0, 0, 0, 1, 0, 9])).map
          (sensorCsvPath "d" "s")) :=
  C2_order_first_appearance ⟨true, fun _ _ => .exited 0 "", fun _ => 1⟩
    "s.bin" "d" "s" [2, 0, 0, 0, 0, 0, 1, 0, 8, 1, 0, 0, 0, 0, 0, 1, 0, 9]
    (by decide) rfl (by decide) (by decide) (by decide)

/-- C3 (amended): on a mid-payload truncation, `train.py`'s framing halts
and raises an error identifying the byte offset reached (`f_in.tell()`, the
end of the stream), and the short payload is never written to any sink; the
demux loop of `main.py` halts with the same sinks — the short payload
unwritten — but reports no truncation error: only a warning is logged and
its pipeline proceeds to decode the sinks it has. -/
theorem C3_truncation_reporting (stream : ByteStream)
    (hfc : frameComplete stream = false) :
    (demuxLoop stream 0 [] 0).status = .truncated stream.length ∧
    (∀ ch, sinkData (demuxLoop stream 0 [] 0).sinks ch =
      (handlePayloads (framePackets stream) ch).flatten) ∧
    (∀ env fp bd bn, endsWithCsv fp = false → endsWithBin fp = true →
      (trainProcess env fp bd bn stream).result =
        .error (.demuxTruncated stream.length)) ∧
    (∀ (env : DecodeEnv) fp bd bn, endsWithBin fp = true →
      env.decoderExists = true →
      (mainProcess env fp bd bn stream).invocations =
        (demuxLoop stream 0 [] 0).sinks.map (fun s => s.connHandle)) := by
  refine ⟨?_, fun ch => sinkData_demux stream ch, ?_, ?_⟩
  · rw [demuxLoop_of_truncated stream hfc]
    show DemuxStatus.truncated (0 + stream.length) = _
    rw [Nat.zero_add]
  · intro env fp bd bn hcsv hbin
    rw [trainProcess_truncated env fp bd bn stream hcsv hbin hfc]
  · intro env fp bd bn hbin henv
    exact (mainProcess_fields env fp bd bn stream hbin henv).2

/-- C3 counterexample: on a stream whose second packet is cut mid-payload,
`main.py`'s pipeline reports no truncation error at all — it returns a
successful artifact list — refuting the claim that framing reports a
truncation error with the byte offset for every such input. -/
theorem C3_counterexample :
    frameComplete [1, 0, 0, 0, 0, 0, 1, 0, 9,
      1, 0, 0, 0, 0, 0, 5, 0, 1, 2] = false ∧
    (mainProcess ⟨true, fun _ _ => .exited 0 "", fun _ => 1⟩ "s.bin" "d" "s"
        [1, 0, 0, 0, 0, 0, 1, 0, 9, 1, 0, 0, 0, 0, 0, 5, 0, 1, 2]).result =
      .ok ["d/s_sensor_1.csv"] := by decide

theorem C3_truncation_reporting_witness :
    (demuxLoop [1, 0, 0, 0, 0, 0, 1, 0, 9, 1, 0, 0, 0, 0, 0, 5, 0, 1, 2]
      0 [] 0).status = .truncated 19 :=
  (C3_truncation_reporting
    [1, 0, 0, 0, 0, 0, 1, 0, 9, 1, 0, 0, 0, 0, 0, 5, 0, 1, 2]
    (by decide)).1

/-- C4 (amended): on a mid-payload truncation both variants close every sink
holding exactly the payload bytes routed to it before the truncation point;
`main.py` then hands those partial sinks on to decoding (partial success),
while `train.py` turns the truncation into a job-level RuntimeError: its
files stay on disk but zero decoder invocations are attempted. -/
theorem C4_truncation_partial_data (stream : ByteStream)
    (hfc : frameComplete stream = false) (env : DecodeEnv)
    (fp bd bn : String) (hcsv : endsWithCsv fp = false)
    (hbin : endsWithBin fp = true) (henv : env.decoderExists = true) :
    (∀ ch, sinkData (mainProcess env fp bd bn stream).sinks ch =
      (handlePayloads (framePackets stream) ch).flatten) ∧
    (mainProcess env fp bd bn stream).invocations =
      (mainProcess env fp bd bn stream).sinks.map (fun s => s.connHandle) ∧
    (trainProcess env fp bd bn stream).sinks =
      (mainProcess env fp bd bn stream).sinks ∧
    (trainProcess env fp bd bn stream).result =
      .error (.demuxTruncated stream.length) ∧
    (trainProcess env fp bd bn stream).invocations = [] := by
  obtain ⟨hms, hminv⟩ := mainProcess_fields env fp bd bn stream hbin henv
  refine ⟨?_, ?_, ?_, ?_, ?_⟩
  · intro ch
    rw [hms]
    exact sinkData_demux stream ch
  · rw [hms, hminv]
  · rw [hms, trainProcess_truncated env fp bd bn stream hcsv hbin hfc]
    rw [demuxLoop_of_truncated stream hfc]
  · rw [trainProcess_truncated env fp bd bn stream hcsv hbin hfc]
  · rw [trainProcess_truncated env fp bd bn stream hcsv hbin hfc]

/-- C4 counterexample: on a truncated capture whose first sensor already
received 1 byte of payload, `train.py` aborts the whole job with a
RuntimeError and attempts zero decoder invocations — the preserved partial
sink is never handed on to decoding, refuting the claim that the partial
data remains usable rather than becoming a job-level abort. -/
theorem C4_counterexample :
    (trainProcess ⟨true, fun _ _ => .exited 0 "", fun _ => 1⟩ "t.bin" "d" "t"
        [1, 0, 0, 0, 0, 0, 1, 0, 9, 1, 0, 0, 0, 0, 0, 5, 0, 1, 2]).sinks =
      [⟨1, [9], 1⟩] ∧
    (trainProcess ⟨true, fun _ _ => .exited 0 "", fun _ => 1⟩ "t.bin" "d" "t"
        [1, 0, 0, 0, 0, 0, 1, 0, 9, 1, 0, 0, 0, 0, 0, 5, 0, 1, 2]).result =
      .error (.demuxTruncated 19) ∧
    (trainProcess ⟨true, fun _ _ => .exited 0 "", fun _ => 1⟩ "t.bin" "d" "t"
        [1, 0, 0, 0, 0, 0, 1, 0, 9, 1, 0, 0, 0, 0, 0,
          5, 0, 1, 2]).invocations = [] := by decide

theorem C4_truncation_partial_data_witness :
    (trainProcess ⟨true, fun _ _ => .exited 0 "", fun _ => 1⟩ "u.bin" "d" "u"
        [2, 0, 0, 0, 0, 0, 2, 0, 5, 6, 2, 0, 0, 0, 0, 0, 9, 0, 1]).invocations
      = [] :=
  (C4_truncation_partial_data
    [2, 0, 0, 0, 0, 0, 2, 0, 5, 6, 2, 0, 0, 0, 0, 0, 9, 0, 1] (by decide)
    ⟨true, fun _ _ => .exited 0 "", fun _ => 1⟩ "u.bin" "d" "u"
    (by decide) (by decide) rfl).2.2.2.2
